import Mathlib

/-!
Shallow embedding of the berth layout / conflict-validation engine
(berth_layout.py, validate.py, schema.py, app.py, ui/viz/origin.py, db.py).

Conventions used throughout:
* timestamps are modelled as whole minutes since an arbitrary epoch (`ℤ`);
  a missing / NaT / unparseable timestamp is `none : Option ℤ`;
* float fields are modelled as rationals (`ℚ`); `None` / `NaN` /
  unconvertible values are `none : Option ℚ`;
* pandas rows become structures, DataFrames become lists of rows.
-/

/-- Python's built-in `round` (round-half-to-even, banker's rounding) applied
to the fraction `a / b` with `b > 0`, as used by `schema.snap_y_30m` and
`schema.snap_time_5min`. -/
def roundHalfEvenFrac (a b : ℤ) : ℤ :=
  let f := a.fdiv b
  let r := a - f * b
  if 2 * r < b then f
  else if b < 2 * r then f + 1
  else if f.emod 2 = 0 then f else f + 1

/-- `schema.Y_GRID_M`: the vertical (meter) snap grid. -/
def Y_GRID_M : ℤ := 30

/-- `schema.snap_y_30m`: snap a meter coordinate to the 30 m grid with
Python `round` (half-even), `round(y_m / Y_GRID_M) * Y_GRID_M`.
`y_m / 30` is the fraction `y_m.num / (30 * y_m.den)`.
(The Python guard returning `0.0` for non-numeric input is outside this
model: the argument is already a number.) -/
def snap_y_30m (y_m : ℚ) : ℚ := ((roundHalfEvenFrac y_m.num (30 * y_m.den)) * 30 : ℤ)

/-- `schema.snap_time_5min`: zero the seconds, take the minutes elapsed since
midnight, round them to the 5-minute grid with Python `round`, and rebuild the
timestamp from midnight plus the snapped minutes (day overflow included).
Timestamps are whole minutes, so zeroing seconds is the identity, and
`minutes / 5` never lies exactly half way between two integers, so half-even
rounding coincides with rounding to the nearest integer. -/
def snap_time_5min (ts : ℤ) : ℤ :=
  (ts - ts.emod 1440) + 5 * roundHalfEvenFrac (ts.emod 1440) 5

/-- The `minute_map.get(snap_choice, 60)` lookup of
`berth_layout.snap_to_interval`: grid width in minutes for a snap choice,
defaulting to 60. -/
def minuteMap (snap_choice : String) : ℤ :=
  if snap_choice = "1h" then 60
  else if snap_choice = "30m" then 30
  else if snap_choice = "15m" then 15
  else 60

/-- `berth_layout.snap_to_interval`: NaT (or input that coerces to NaT)
passes through; otherwise `ts.floor(f"{minutes}min")`, i.e. the timestamp is
floored to a multiple of the grid width. -/
def snap_to_interval (ts : Option ℤ) (snap_choice : String) : Option ℤ :=
  match ts with
  | none => none
  | some m => some (m - m.emod (minuteMap snap_choice))

/-- Python `str.strip()`: drop whitespace from both ends of the character list. -/
def trimChars (cs : List Char) : List Char :=
  (((cs.dropWhile Char.isWhitespace).reverse).dropWhile Char.isWhitespace).reverse

/-- All digit characters of a text, in order (`"".join(ch for ch in text if ch.isdigit())`). -/
def digitsOf (cs : List Char) : List Char := cs.filter Char.isDigit

/-- Python `int` on a non-empty digit string (decimal value; leading zeros drop). -/
def digitsToNat (ds : List Char) : ℕ := ds.foldl (fun n c => 10 * n + (c.toNat - 48)) 0

/-- The characters strictly before the first `'('` (`text[:text.find("(")]`). -/
def beforeParen (cs : List Char) : List Char := cs.takeWhile (· ≠ '(')

/-- The characters strictly after the first `'('`. -/
def afterParen (cs : List Char) : List Char := (cs.dropWhile (· ≠ '(')).drop 1

/-- The characters between the first `'('` and the next `')'` after it
(`text[start:end]` with `start = text.find("(") + 1`, `end = text.find(")", start)`). -/
def insideParens (cs : List Char) : List Char := (afterParen cs).takeWhile (· ≠ ')')

/-- `berth_layout.normalize_berth_label`: canonicalize a raw berth label.
`None`/NaN is `none` and maps to `""`; otherwise the stripped text is
processed: digits before a parenthesis win, then digits inside the
parentheses, then all digits anywhere (joined and read as an integer via
`str(int(...))`), else the stripped text itself. -/
def normalize_berth_label (value : Option String) : String :=
  match value with
  | none => ""
  | some s =>
    let cs := trimChars s.toList
    if cs = [] then ""
    else
      if cs.contains '(' ∧ digitsOf (beforeParen cs) ≠ [] then
        toString (digitsToNat (digitsOf (beforeParen cs)))
      else if cs.contains '(' ∧ (afterParen cs).contains ')' ∧ digitsOf (insideParens cs) ≠ [] then
        toString (digitsToNat (digitsOf (insideParens cs)))
      else if digitsOf cs ≠ [] then
        toString (digitsToNat (digitsOf cs))
      else String.mk cs

/-- The claim's reading of the last digit rule: the *first run* of digit
characters found anywhere in the text. -/
def firstDigitRun (cs : List Char) : List Char :=
  (cs.dropWhile (fun c => ¬ c.isDigit)).takeWhile Char.isDigit

theorem emod60_emod (m g : ℤ) (h : g ∣ 60) : (m.emod 60).emod g = m.emod g :=
  Int.emod_emod_of_dvd m h

theorem roundHalfEvenFrac_mul_cancel (k b : ℤ) (hb : 0 < b) :
    roundHalfEvenFrac (k * b) b = k := by
  unfold roundHalfEvenFrac
  rw [Int.mul_fdiv_cancel k (by omega : b ≠ 0)]
  simp only [sub_self, mul_zero]
  rw [if_pos hb]

example : normalize_berth_label (some "9(1)") = "9" := by decide
example : normalize_berth_label (some "(3)") = "3" := by decide
example : normalize_berth_label (some "") = "" := by decide
example : normalize_berth_label none = "" := by decide
example : normalize_berth_label (some "a1b2") = "12" := by decide
example : String.mk (firstDigitRun "a1b2".toList) = "1" := by decide
example : snap_to_interval (some 647) "30m" = some 630 := by decide
example : snap_y_30m 45 = 60 ∧ snap_y_30m 44 = 30 ∧ snap_y_30m 75 = 60 := by decide
example : snap_time_5min 602 = 600 ∧ snap_time_5min 607 = 605 := by decide

/-- C9: `snap_to_interval` floors a timestamp down to the nearest multiple of
the grid width counted from the top of the hour, for the supported grids
15/30/60 minutes with 60 as the default for any other choice string; with the
30-minute grid, 10:47 (minute 647) maps to 10:30 (minute 630); NaT (`none`)
passes through unchanged. -/
theorem snap_to_interval_spec (snap_choice : String) (m : ℤ) :
    snap_to_interval none snap_choice = none
    ∧ snap_to_interval (some m) snap_choice
        = some ((m - m.emod 60) + (m.emod 60 - (m.emod 60).emod (minuteMap snap_choice)))
    ∧ (minuteMap snap_choice = 15 ∨ minuteMap snap_choice = 30 ∨ minuteMap snap_choice = 60)
    ∧ (snap_choice ≠ "1h" → snap_choice ≠ "30m" → snap_choice ≠ "15m" →
        minuteMap snap_choice = 60)
    ∧ snap_to_interval (some 647) "30m" = some 630 := by
  refine ⟨rfl, ?_, ?_, ?_, by decide⟩
  · show some (m - m.emod (minuteMap snap_choice)) = _
    unfold minuteMap
    split_ifs <;> (rw [emod60_emod m _ (by norm_num)]; congr 1; omega)
  · unfold minuteMap
    split_ifs <;> simp
  · intro h1 h2 h3
    unfold minuteMap
    rw [if_neg h1, if_neg h2, if_neg h3]

theorem snap_to_interval_spec_witness :
    minuteMap "2h" = 60 ∧ snap_to_interval (some 647) "30m" = some 630 := by
  have h := snap_to_interval_spec "2h" 647
  exact ⟨h.2.2.2.1 (by decide) (by decide) (by decide), h.2.2.2.2⟩

/-- C10: snapping is idempotent, both for time (`snap_to_interval`, for every
grid-choice string including the default branch) and for space
(`snap_y_30m`). -/
theorem snapping_idempotent (ts : Option ℤ) (snap_choice : String) (y : ℚ) :
    snap_to_interval (snap_to_interval ts snap_choice) snap_choice
        = snap_to_interval ts snap_choice
    ∧ snap_y_30m (snap_y_30m y) = snap_y_30m y := by
  constructor
  · cases ts with
    | none => rfl
    | some m =>
      show some (_ - _) = some _
      congr 1
      have h : (m - m.emod (minuteMap snap_choice)).emod (minuteMap snap_choice) = 0 := by
        show (m - m % minuteMap snap_choice) % minuteMap snap_choice = 0
        rw [Int.sub_emod, Int.emod_emod_of_dvd _ dvd_rfl, sub_self, Int.zero_emod]
      omega
  · unfold snap_y_30m
    rw [Rat.num_intCast, Rat.den_intCast, Nat.cast_one, mul_one,
      roundHalfEvenFrac_mul_cancel _ 30 (by norm_num)]

/-- The amended normalization rule, stated from the spec's words with the
"first run of digits" clause replaced by "all digits found anywhere in the
text, concatenated and read as an integer" (and likewise for the digits
before / inside the parentheses). -/
def normalizeBerthLabelSpec (value : Option String) : String :=
  match value with
  | none => ""
  | some s =>
    let cs := trimChars s.toList
    if cs.isEmpty then ""
    else if cs.contains '(' ∧ (beforeParen cs).any Char.isDigit then
      toString (digitsToNat ((beforeParen cs).filter Char.isDigit))
    else if cs.contains '(' ∧ (afterParen cs).contains ')' ∧ (insideParens cs).any Char.isDigit then
      toString (digitsToNat ((insideParens cs).filter Char.isDigit))
    else if cs.any Char.isDigit then
      toString (digitsToNat (cs.filter Char.isDigit))
    else String.mk cs

/-- C4 counterexample: the claim's "first run of digits" rule fails on
`"a1b2"`: the first run of digits is `"1"`, but `normalize_berth_label`
concatenates all digits and returns `"12"`. -/
theorem normalize_berth_label_counterexample :
    normalize_berth_label (some "a1b2") = "12"
    ∧ String.mk (firstDigitRun "a1b2".toList) = "1"
    ∧ ("12" : String) ≠ "1" := by decide

/-- C4 (amended): `normalize_berth_label` maps null/NaN/empty input to `""`;
otherwise, digits before a parenthesis win, else digits inside the
parentheses, else *all digits found anywhere in the text are concatenated and
read as an integer* (not just the first run), else the trimmed text is
returned unchanged; in particular `"9(1)" ↦ "9"`, `"(3)" ↦ "3"`, `"" ↦ ""`
and `None ↦ ""`. -/
theorem normalize_berth_label_amended (v : Option String) :
    normalizeBerthLabelSpec v = normalize_berth_label v
    ∧ normalize_berth_label (some "9(1)") = "9"
    ∧ normalize_berth_label (some "(3)") = "3"
    ∧ normalize_berth_label (some "") = ""
    ∧ normalize_berth_label none = "" := by
  refine ⟨?_, by decide, by decide, by decide, rfl⟩
  cases v with
  | none => rfl
  | some s =>
    have hany : ∀ l : List Char, (l.any Char.isDigit = true) ↔ digitsOf l ≠ [] := by
      intro l
      simp [digitsOf, List.any_eq_true, List.filter_eq_nil_iff]
    simp only [normalizeBerthLabelSpec, normalize_berth_label, List.isEmpty_iff, hany, digitsOf]

/-- `berth_layout.BP_BASELINE_M`: the B.P. baseline coordinate (m). -/
def BP_BASELINE_M : ℚ := 1500

/-- `berth_layout.BERTH_VERTICAL_SPAN_PX`: height of one berth lane (px). -/
def BERTH_VERTICAL_SPAN_PX : ℚ := 300

/-- `berth_layout.BERTH_METER_RANGES`: the static berth → meter-range table. -/
def BERTH_METER_RANGES (key : String) : Option (ℚ × ℚ) :=
  if key = "1" then some (1200, 1500)
  else if key = "2" then some (900, 1200)
  else if key = "3" then some (600, 900)
  else if key = "4" then some (300, 600)
  else if key = "5" then some (0, 300)
  else none

/-- One data row as consumed by the layout resolver.  Every field models the
corresponding pandas column; `none` stands for a missing / NaN /
unconvertible value (`_to_float` returning `None`). -/
structure LayoutRow where
  berth : Option String
  start_meter : Option ℚ
  end_meter : Option ℚ
  f_pos : Option ℚ
  e_pos : Option ℚ
  loa_m : Option ℚ
  length_m : Option ℚ
deriving DecidableEq

/-- `berth_layout.extract_meter_range`: collect whichever of
`start_meter`, `end_meter`, `f_pos`, `e_pos` are present and return
`(min, max)` over that subset, or `(None, None)` when none are present. -/
def extract_meter_range (row : LayoutRow) : Option ℚ × Option ℚ :=
  match [row.start_meter, row.end_meter, row.f_pos, row.e_pos].filterMap id with
  | [] => (none, none)
  | v :: vs => (some (vs.foldl min v), some (vs.foldl max v))

/-- `berth_layout.get_berth_meter_range`: canonicalize the label, then look it
up in the static table (empty canonical label → `None`). -/
def get_berth_meter_range (berth_value : Option String) : Option (ℚ × ℚ) :=
  let key := normalize_berth_label berth_value
  if key = "" then none else BERTH_METER_RANGES key

/-- `berth_layout.resolve_berth_span`: the berth's own meter span, when the
berth is known and the span is positive. -/
def resolve_berth_span (row : LayoutRow) : Option ℚ :=
  match get_berth_meter_range row.berth with
  | none => none
  | some (s, e) => if e - s ≤ 0 then none else some (e - s)

/-- `berth_layout.compute_item_height`: height of a booking's rendered block.
Span of the occupied meter range when positive (capped by the berth span and
clamped to `[24, max_height]`), else `loa_m` / `length_m` clamped the same
way, else the fixed default 86 px. -/
def compute_item_height (row : LayoutRow) : ℚ :=
  let berth_span := resolve_berth_span row
  let max_height := berth_span.getD BERTH_VERTICAL_SPAN_PX
  let fromSpan : Option ℚ :=
    match extract_meter_range row with
    | (some sm, some em) =>
      let span := max sm em - min sm em
      if 0 < span then
        let span2 := match berth_span with
          | some bs => min span bs
          | none => span
        some (max 24 (min max_height span2))
      else none
    | _ => none
  match fromSpan with
  | some h => h
  | none =>
    match (match row.loa_m with | some v => some v | none => row.length_m) with
    | none => 86
    | some numeric => max 24 (min max_height numeric)

/-- The trailing baseline fallback of `berth_layout.compute_item_offset`,
used when the berth's meter range is unknown or degenerate: anchor on the
largest available position value, offset from the B.P. baseline, clamp into
`[0, BERTH_VERTICAL_SPAN_PX - item_height]`. -/
def offsetBaselineFallback (start_meter end_meter f_pos e_pos : Option ℚ)
    (item_height : ℚ) : ℚ :=
  match [start_meter, end_meter, f_pos, e_pos].filterMap id with
  | [] => 0
  | c :: rest =>
    let anchor := rest.foldl max c
    let offset := BP_BASELINE_M - anchor
    let offset1 := if offset < 0 then 0 else offset
    let max_offset := max 0 (BERTH_VERTICAL_SPAN_PX - item_height)
    if max_offset < offset1 then max_offset else offset1

/-- `berth_layout.compute_item_offset`: top margin of a booking's block inside
its berth lane.  With a known, non-degenerate berth range: anchor on the low
end of the extracted meter range (falling back to `f_pos`/`e_pos`, then give
up with 0), clamp the anchor into the berth range, and clamp the resulting
offset into `[0, berth_span - item_height]`.  Otherwise the baseline
fallback. -/
def compute_item_offset (row : LayoutRow) (item_height : ℚ) : ℚ :=
  let mr := extract_meter_range row
  match get_berth_meter_range row.berth with
  | some (berth_start, berth_end) =>
    if berth_start < berth_end then
      let top_anchor : Option ℚ :=
        match mr.1 with
        | some v => some v
        | none =>
          match mr.2 with
          | some v => some v
          | none =>
            match [row.f_pos, row.e_pos].filterMap id with
            | [] => none
            | c :: rest => some (rest.foldl min c)
      match top_anchor with
      | none => 0
      | some ta =>
        let clamped_top := min (max ta berth_start) berth_end
        let offset := clamped_top - berth_start
        let max_offset := max 0 ((berth_end - berth_start) - item_height)
        let offset2 := if max_offset < offset then max_offset else offset
        if offset2 < 0 then 0 else offset2
    else offsetBaselineFallback mr.1 mr.2 row.f_pos row.e_pos item_height
  | none => offsetBaselineFallback mr.1 mr.2 row.f_pos row.e_pos item_height

/-- The berth-lane maximum block height: the berth's own span when
resolvable, else the global lane constant. -/
def laneMaxHeight (row : LayoutRow) : ℚ :=
  (resolve_berth_span row).getD BERTH_VERTICAL_SPAN_PX

theorem foldl_max_init_mono (vs : List ℚ) :
    ∀ a b : ℚ, a ≤ b → vs.foldl max a ≤ vs.foldl max b := by
  induction vs with
  | nil => intro a b h; simpa using h
  | cons x t ih =>
    intro a b h
    exact ih (max a x) (max b x) (max_le_max h le_rfl)

theorem foldl_min_init_mono (vs : List ℚ) :
    ∀ a b : ℚ, a ≤ b → vs.foldl min a ≤ vs.foldl min b := by
  induction vs with
  | nil => intro a b h; simpa using h
  | cons x t ih =>
    intro a b h
    exact ih (min a x) (min b x) (min_le_min h le_rfl)

theorem foldl_min_le_foldl_max (v : ℚ) (vs : List ℚ) :
    vs.foldl min v ≤ vs.foldl max v := by
  induction vs generalizing v with
  | nil => simp
  | cons x t ih =>
    simp only [List.foldl]
    exact le_trans (ih (min v x))
      (foldl_max_init_mono t (min v x) (max v x) (le_trans (min_le_left v x) (le_max_left v x)))

/-- The extracted meter range is ordered: its first component is at most its
second. -/
theorem extract_meter_range_le (row : LayoutRow) (lo hi : ℚ)
    (h : extract_meter_range row = (some lo, some hi)) : lo ≤ hi := by
  unfold extract_meter_range at h
  rcases hv : [row.start_meter, row.end_meter, row.f_pos, row.e_pos].filterMap id with _ | ⟨v, vs⟩
  · rw [hv] at h; simp at h
  · rw [hv] at h
    simp only [Prod.mk.injEq, Option.some.injEq] at h
    rw [← h.1, ← h.2]
    exact foldl_min_le_foldl_max v vs

theorem extract_meter_range_none_fst (row : LayoutRow)
    (h : (extract_meter_range row).1 = none) : extract_meter_range row = (none, none) := by
  unfold extract_meter_range at h ⊢
  rcases hv : [row.start_meter, row.end_meter, row.f_pos, row.e_pos].filterMap id
    with _ | ⟨v, vs⟩
  · rfl
  · rw [hv] at h
    exact Option.noConfusion h

/-- C7: height resolution order of `compute_item_height`: (1) a known,
positive extracted meter span is used, clamped to
`[24, laneMaxHeight]`, regardless of `loa_m`; (2) otherwise `loa_m` (or the
secondary `length_m`) is clamped the same way; (3) otherwise the fixed 86 px
default applies. -/
theorem compute_item_height_resolution (row : LayoutRow) (lo hi v : ℚ) :
    (extract_meter_range row = (some lo, some hi) → 0 < hi - lo →
      compute_item_height row = max 24 (min (laneMaxHeight row) (hi - lo))
      ∧ (∀ q, compute_item_height { row with loa_m := q } = compute_item_height row))
    ∧ (((extract_meter_range row).1 = none
        ∨ ∃ a b, extract_meter_range row = (some a, some b) ∧ b - a ≤ 0) →
      (row.loa_m = some v → compute_item_height row = max 24 (min (laneMaxHeight row) v))
      ∧ (row.loa_m = none → row.length_m = some v →
          compute_item_height row = max 24 (min (laneMaxHeight row) v))
      ∧ (row.loa_m = none → row.length_m = none → compute_item_height row = 86)) := by
  constructor
  · intro hmr hs
    have hle := extract_meter_range_le row lo hi hmr
    have hkey : ∀ r : LayoutRow, extract_meter_range r = (some lo, some hi) →
        resolve_berth_span r = resolve_berth_span row →
        compute_item_height r = max 24 (min (laneMaxHeight row) (hi - lo)) := by
      intro r hmr' hbs'
      unfold compute_item_height
      rw [hmr', hbs']
      unfold laneMaxHeight
      cases hbs : resolve_berth_span row with
      | none =>
        simp only [Option.getD_none, max_eq_right hle, min_eq_left hle, if_pos hs]
      | some bs =>
        simp only [Option.getD_some, max_eq_right hle, min_eq_left hle, if_pos hs]
        rw [min_comm (hi - lo) bs, ← min_assoc, min_self]
    exact ⟨hkey row hmr rfl, fun q =>
      by rw [hkey { row with loa_m := q } hmr rfl, hkey row hmr rfl]⟩
  · intro hnone
    have hspanNone : compute_item_height row =
        (match (match row.loa_m with | some v' => some v' | none => row.length_m) with
         | none => (86 : ℚ)
         | some numeric => max 24 (min (laneMaxHeight row) numeric)) := by
      unfold compute_item_height laneMaxHeight
      rcases hnone with h1 | ⟨a, b, hab, hle0⟩
      · rw [extract_meter_range_none_fst row h1]
      · have hle := extract_meter_range_le row a b hab
        rw [hab]
        simp only [max_eq_right hle, min_eq_left hle]
        rw [if_neg (by linarith : ¬ (0:ℚ) < b - a)]
    refine ⟨fun hl => ?_, fun hl hlen => ?_, fun hl hlen => ?_⟩
    · rw [hspanNone, hl]
    · rw [hspanNone, hl, hlen]
    · rw [hspanNone, hl, hlen]

theorem laneMaxHeight_berth_one (row : LayoutRow) (h : row.berth = some "1") :
    laneMaxHeight row = 300 := by
  unfold laneMaxHeight resolve_berth_span get_berth_meter_range
  rw [h]
  have hn : normalize_berth_label (some "1") = "1" := by decide
  rw [hn]
  norm_num [BERTH_METER_RANGES]
  rw [if_neg (show ¬ ("1":String) = "" by decide)]
  norm_num

theorem compute_item_height_resolution_witness :
    compute_item_height ⟨some "1", some 1300, some 1400, none, none, some 50, none⟩ = 100
    ∧ compute_item_height ⟨some "1", some 1300, some 1400, none, none, none, none⟩
        = compute_item_height ⟨some "1", some 1300, some 1400, none, none, some 50, none⟩
    ∧ compute_item_height ⟨some "1", none, none, none, none, some 50, none⟩ = 50
    ∧ compute_item_height ⟨some "1", none, none, none, none, none, some 400⟩ = 300
    ∧ compute_item_height ⟨some "1", none, none, none, none, none, none⟩ = 86 := by
  have hA := compute_item_height_resolution
    ⟨some "1", some 1300, some 1400, none, none, some 50, none⟩ 1300 1400 0
  have hmrA : extract_meter_range ⟨some "1", some 1300, some 1400, none, none, some 50, none⟩
      = (some 1300, some 1400) := by decide
  have hsA : (0:ℚ) < 1400 - 1300 := by norm_num
  have hB := compute_item_height_resolution ⟨some "1", none, none, none, none, some 50, none⟩ 0 0 50
  have hC := compute_item_height_resolution ⟨some "1", none, none, none, none, none, some 400⟩ 0 0 400
  have hD := compute_item_height_resolution ⟨some "1", none, none, none, none, none, none⟩ 0 0 0
  refine ⟨?_, ?_, ?_, ?_, ?_⟩
  · rw [(hA.1 hmrA hsA).1, laneMaxHeight_berth_one _ rfl]
    norm_num
  · exact (hA.1 hmrA hsA).2 none
  · rw [hB.2 (Or.inl (by decide)) |>.1 rfl, laneMaxHeight_berth_one _ rfl]
    norm_num
  · rw [hC.2 (Or.inl (by decide)) |>.2.1 rfl rfl, laneMaxHeight_berth_one _ rfl]
    norm_num
  · exact hD.2 (Or.inl (by decide)) |>.2.2 rfl rfl

/-- C8 counterexample: for a booking on berth "1" with no position data at
all and height 86, `compute_item_offset` returns `0`, not the centered value
`(laneHeight - height) / 2 = (300 - 86) / 2 = 107`. -/
theorem compute_item_offset_center_counterexample :
    compute_item_offset ⟨some "1", none, none, none, none, none, none⟩ 86 = 0
    ∧ (BERTH_VERTICAL_SPAN_PX - 86) / 2 = 107
    ∧ (0 : ℚ) ≠ 107 := by
  refine ⟨by decide, by norm_num [BERTH_VERTICAL_SPAN_PX], by norm_num⟩

/-- C8 (amended): when a row carries no position data at all (no
`start_meter`, `end_meter`, `f_pos` or `e_pos`), `compute_item_offset`
returns offset `0` — the top of the lane — for every item height; the block
is *not* centered. -/
theorem compute_item_offset_no_position (row : LayoutRow) (item_height : ℚ)
    (h1 : row.start_meter = none) (h2 : row.end_meter = none)
    (h3 : row.f_pos = none) (h4 : row.e_pos = none) :
    compute_item_offset row item_height = 0 := by
  have hmr : extract_meter_range row = (none, none) := by
    unfold extract_meter_range
    rw [h1, h2, h3, h4]
    rfl
  unfold compute_item_offset
  simp only [hmr, h3, h4]
  cases hg : get_berth_meter_range row.berth with
  | none => simp [offsetBaselineFallback]
  | some p =>
    obtain ⟨s, e⟩ := p
    by_cases hlt : s < e
    · simp [hlt]
    · simp [hlt, offsetBaselineFallback]

theorem compute_item_offset_no_position_witness :
    compute_item_offset ⟨some "1", none, none, none, none, some 50, none⟩ 86 = 0 :=
  compute_item_offset_no_position _ 86 rfl rfl rfl rfl

/-- One row as consumed by `validate.validate_temporal_overlaps`:
berth, vessel, eta and etd (timestamps in minutes). -/
structure TRow where
  berth : String
  vessel : String
  eta : ℤ
  etd : ℤ
deriving DecidableEq

/-- The `sort_values(["berth", "eta"])` key order: lexicographic on
(berth, eta), ascending. -/
def rowKeyLe (a b : TRow) : Bool :=
  if a.berth < b.berth then true
  else if a.berth = b.berth then decide (a.eta ≤ b.eta)
  else false

/-- Insert into a sorted list, keeping equal keys in their original order
(stable insertion). -/
def insertLe {α : Type} (le : α → α → Bool) (x : α) : List α → List α
  | [] => [x]
  | y :: ys => if le x y then x :: y :: ys else y :: insertLe le x ys

/-- Stable insertion sort, modelling the deterministic row ordering that
`sort_values` establishes before grouping. -/
def insertionSort {α : Type} (le : α → α → Bool) : List α → List α
  | [] => []
  | x :: xs => insertLe le x (insertionSort le xs)

/-- The group keys of a pandas `groupby`: unique values, first occurrence
order (which is ascending order once the frame is sorted by the key). -/
def dedupFirst (l : List String) : List String :=
  l.foldl (fun acc x => if x ∈ acc then acc else acc ++ [x]) []

/-- One temporal-overlap violation record: berth plus the two vessels of the
offending adjacent pair (the payload of the Korean message string). -/
structure TemporalViolation where
  berth : String
  prev_vessel : String
  curr_vessel : String
deriving DecidableEq

/-- The `prev`/`row` loop of `validate_temporal_overlaps` over one berth
group: flag each adjacent pair with `prev.etd > curr.eta`. -/
def adjOverlapScan : Option TRow → List TRow → List TemporalViolation
  | _, [] => []
  | none, r :: rest => adjOverlapScan (some r) rest
  | some p, r :: rest =>
    (if r.eta < p.etd then [⟨r.berth, p.vessel, r.vessel⟩] else [])
      ++ adjOverlapScan (some r) rest

/-- `validate.validate_temporal_overlaps`: sort by (berth, eta), group by
berth, and within each group flag adjacent pairs whose time intervals
overlap (`prev["etd"] > r["eta"]`). -/
def validate_temporal_overlaps (rows : List TRow) : List TemporalViolation :=
  let d := insertionSort rowKeyLe rows
  let keys := dedupFirst (d.map (·.berth))
  (keys.map (fun k => adjOverlapScan none (d.filter (fun r => r.berth = k)))).flatten

/-- C3: for two bookings with valid intervals (`eta < etd`), the detector
reports exactly one temporal-overlap violation iff they are on the same berth
and `¬(a.etd ≤ b.eta ∨ b.etd ≤ a.eta)`, and zero violations otherwise; in
particular one violation for 10:00–12:00 vs 11:00–13:00 on one berth, and
zero for identical overlapping intervals on two different berths. -/
theorem validate_temporal_overlaps_pair (a b : TRow)
    (ha : a.eta < a.etd) (hb : b.eta < b.etd) :
    (validate_temporal_overlaps [a, b]).length =
      if a.berth = b.berth ∧ ¬ (a.etd ≤ b.eta ∨ b.etd ≤ a.eta) then 1 else 0 := by
  have hsort : insertionSort rowKeyLe [a, b]
      = if rowKeyLe a b then [a, b] else [b, a] := by
    simp [insertionSort, insertLe]
  by_cases heq : a.berth = b.berth
  · by_cases hk : rowKeyLe a b = true
    · have hae : a.eta ≤ b.eta := by
        unfold rowKeyLe at hk
        rw [if_neg (by rw [heq]; exact lt_irrefl _), if_pos heq] at hk
        exact of_decide_eq_true hk
      have hcount : validate_temporal_overlaps [a, b]
          = if b.eta < a.etd then [⟨b.berth, a.vessel, b.vessel⟩] else [] := by
        unfold validate_temporal_overlaps
        rw [hsort, if_pos hk]
        simp [dedupFirst, heq, adjOverlapScan]
      rw [hcount]
      rcases lt_or_le b.eta a.etd with h1 | h1
      · rw [if_pos h1, if_pos ⟨heq, by omega⟩]; rfl
      · rw [if_neg (by omega), if_neg (fun hcon => hcon.2 (Or.inl h1))]; rfl
    · have hbe : b.eta < a.eta := by
        unfold rowKeyLe at hk
        rw [if_neg (by rw [heq]; exact lt_irrefl _), if_pos heq] at hk
        have := of_decide_eq_false (Bool.of_not_eq_true hk)
        omega
      have hcount : validate_temporal_overlaps [a, b]
          = if a.eta < b.etd then [⟨a.berth, b.vessel, a.vessel⟩] else [] := by
        unfold validate_temporal_overlaps
        rw [hsort, if_neg hk]
        simp [dedupFirst, heq, adjOverlapScan]
      rw [hcount]
      rcases lt_or_le a.eta b.etd with h1 | h1
      · rw [if_pos h1, if_pos ⟨heq, by omega⟩]; rfl
      · rw [if_neg (by omega), if_neg (fun hcon => hcon.2 (Or.inr h1))]; rfl
  · have hcount : validate_temporal_overlaps [a, b] = [] := by
      unfold validate_temporal_overlaps
      rw [hsort]
      by_cases hk : rowKeyLe a b = true
      · rw [if_pos hk]
        simp [dedupFirst, heq, Ne.symm heq, adjOverlapScan]
      · rw [if_neg hk]
        simp [dedupFirst, heq, Ne.symm heq, adjOverlapScan]
    rw [hcount, if_neg (fun hcon => heq hcon.1)]
    rfl

theorem validate_temporal_overlaps_pair_witness :
    (validate_temporal_overlaps [⟨"1", "A", 600, 720⟩, ⟨"1", "B", 660, 780⟩]).length = 1
    ∧ (validate_temporal_overlaps [⟨"1", "A", 600, 720⟩, ⟨"2", "B", 600, 720⟩]).length = 0 := by
  constructor
  · rw [validate_temporal_overlaps_pair ⟨"1", "A", 600, 720⟩ ⟨"1", "B", 660, 780⟩
      (by decide) (by decide)]
    decide
  · rw [validate_temporal_overlaps_pair ⟨"1", "A", 600, 720⟩ ⟨"2", "B", 600, 720⟩
      (by decide) (by decide)]
    decide

/-- One row as consumed by `app.collect_spacing_conflicts`: berth, vessel,
times, and the (possibly missing) `start_meter` / `end_meter` columns. -/
structure SpacingRow where
  berth : String
  vessel : String
  eta : ℤ
  etd : ℤ
  start_meter : Option ℚ
  end_meter : Option ℚ
deriving DecidableEq

/-- A row surviving `dropna(subset=["start_meter", "end_meter"])`, with the
two meter columns as numbers. -/
structure MeteredRow where
  berth : String
  vessel : String
  s : ℚ
  e : ℚ
deriving DecidableEq

/-- `dropna` on the two meter columns (order preserving). -/
def validRows (rows : List SpacingRow) : List MeteredRow :=
  rows.filterMap (fun r =>
    match r.start_meter, r.end_meter with
    | some s, some e => some ⟨r.berth, r.vessel, s, e⟩
    | _, _ => none)

/-- One spacing-conflict record produced by `collect_spacing_conflicts`
(berth, numeric gap, both vessels, both normalized physical ranges; the
DataFrame row indices of the record are not modelled). -/
structure SpacingConflict where
  berth : String
  gap : ℚ
  prev_vessel : String
  curr_vessel : String
  prev_range : ℚ × ℚ
  curr_range : ℚ × ℚ
deriving DecidableEq

/-- The per-row `if start > end: swap` normalization. -/
def normRange (r : MeteredRow) : ℚ × ℚ := if r.e < r.s then (r.e, r.s) else (r.s, r.e)

/-- The `prev_row`/`row` loop of `collect_spacing_conflicts` over one berth
group already sorted by `start_meter`: flag each adjacent pair whose
normalized gap `curr.start - prev.end` is below the threshold. -/
def spacingScan (g : ℚ) : Option MeteredRow → List MeteredRow → List SpacingConflict
  | _, [] => []
  | none, r :: rest => spacingScan g (some r) rest
  | some p, r :: rest =>
    (if (normRange r).1 - (normRange p).2 < g then
      [⟨r.berth, (normRange r).1 - (normRange p).2, p.vessel, r.vessel,
        normRange p, normRange r⟩]
     else [])
      ++ spacingScan g (some r) rest

/-- String `≤` as a Bool, the ascending group-key order of `groupby`. -/
def strLeBool (a b : String) : Bool := decide (a ≤ b)

/-- `app.collect_spacing_conflicts`: group rows by berth (keys ascending),
drop rows missing either meter column, sort the rest by raw `start_meter`,
and flag each adjacent pair with normalized gap `< min_gap_m`.  Time columns
are never consulted. -/
def collect_spacing_conflicts (df : List SpacingRow) (min_gap_m : ℚ) :
    List SpacingConflict :=
  let keys := dedupFirst (insertionSort strLeBool (df.map (·.berth)))
  (keys.map (fun k =>
    let valid := validRows (df.filter (fun r => r.berth = k))
    let ordered := insertionSort (fun x y => decide (x.s ≤ y.s)) valid
    spacingScan min_gap_m none ordered)).flatten

theorem normRange_eq (r : MeteredRow) : normRange r = (min r.s r.e, max r.s r.e) := by
  unfold normRange
  rcases lt_or_le r.e r.s with h | h
  · rw [if_pos h, min_eq_right h.le, max_eq_left h.le]
  · rw [if_neg (not_lt.2 h), min_eq_left h, max_eq_right h]

/-- C1 counterexample: two bookings on the same berth whose time intervals do
NOT overlap (first ends 10:00, second starts 11:40) but whose meter ranges
`[0,100]` and `[110,200]` are 10 m apart still produce a spacing conflict:
`collect_spacing_conflicts` never consults the time columns, contrary to the
claim that only temporally-overlapping pairs are checked. -/
theorem collect_spacing_conflicts_counterexample :
    (collect_spacing_conflicts
      [⟨"1", "A", 0, 600, some 0, some 100⟩,
       ⟨"1", "B", 700, 800, some 110, some 200⟩] 30).length = 1
    ∧ ((600 : ℤ) ≤ 700 ∨ (800 : ℤ) ≤ 0) := by
  constructor
  · norm_num [collect_spacing_conflicts, dedupFirst, insertionSort, insertLe,
      strLeBool, validRows, spacingScan, normRange]
  · left; norm_num

/-- C1 (amended): the spatial check of `collect_spacing_conflicts` ignores
time intervals entirely; per berth, bookings with both meter columns present
are sorted by raw `start_meter` and each *adjacent* pair is tested: with the
per-booking min/max normalization, the gap is `next.start - prev.end`, and a
record carrying the berth, the gap, both vessels and both normalized ranges
is produced exactly when `gap < min_gap_m`; ranges `[0,100]`/`[130,200]`
yield zero conflicts at the default 30 m, `[0,100]`/`[129,200]` exactly one
with gap 29. -/
theorem collect_spacing_conflicts_amended (bk va vb : String) (ta1 ta2 tb1 tb2 : ℤ)
    (sa ea sb eb g : ℚ) (hs : sa ≤ sb) :
    collect_spacing_conflicts
        [⟨bk, va, ta1, ta2, some sa, some ea⟩, ⟨bk, vb, tb1, tb2, some sb, some eb⟩] g
      = (if min sb eb - max sa ea < g then
          [⟨bk, min sb eb - max sa ea, va, vb, (min sa ea, max sa ea),
            (min sb eb, max sb eb)⟩]
         else [])
    ∧ collect_spacing_conflicts
        [⟨"1", "A", 0, 120, some 0, some 100⟩,
         ⟨"1", "B", 60, 180, some 130, some 200⟩] 30 = []
    ∧ collect_spacing_conflicts
        [⟨"1", "A", 0, 120, some 0, some 100⟩,
         ⟨"1", "B", 60, 180, some 129, some 200⟩] 30
      = [⟨"1", 29, "A", "B", (0, 100), (129, 200)⟩] := by
  refine ⟨?_, ?_, ?_⟩
  · simp only [collect_spacing_conflicts]
    norm_num [dedupFirst, insertionSort, insertLe, strLeBool, validRows,
      spacingScan, normRange_eq, hs]
  · norm_num [collect_spacing_conflicts, dedupFirst, insertionSort, insertLe,
      strLeBool, validRows, spacingScan, normRange]
  · norm_num [collect_spacing_conflicts, dedupFirst, insertionSort, insertLe,
      strLeBool, validRows, spacingScan, normRange]

theorem collect_spacing_conflicts_amended_witness :
    collect_spacing_conflicts
        [⟨"5", "A", 0, 120, some 0, some 100⟩,
         ⟨"5", "B", 60, 180, some 110, some 200⟩] 30
      = [⟨"5", 10, "A", "B", (0, 100), (110, 200)⟩] := by
  have h := (collect_spacing_conflicts_amended "5" "A" "B" 0 120 60 180
    0 100 110 200 30 (by norm_num)).1
  rw [h]
  norm_num

/-- One working-set row as mutated by `ui.viz.origin._apply_move`: the
`row_id` key, a representative immutable display column (`vessel`), the
`start`/`end` timestamps and the `f`/`e` vertical positions.  `none` stands
for NaT respectively NaN/non-finite. -/
structure MoveRow where
  row_id : ℕ
  vessel : String
  startT : Option ℤ
  endT : Option ℤ
  f : Option ℚ
  e : Option ℚ
deriving DecidableEq

/-- One change-log entry of `_append_log`: the before/after field snapshots
of the mutated row (the timestamp-of-log column is not modelled). -/
structure LogEntry where
  before : MoveRow
  after : MoveRow
deriving DecidableEq

/-- The session-state triple of `ui.viz.origin`: the working set
(`edit_df`), the one-slot undo buffer (`undo_df`) and the change log
(`edit_logs`). -/
structure EditState where
  edit_df : List MoveRow
  undo_df : Option (List MoveRow)
  edit_logs : List LogEntry
deriving DecidableEq

/-- `origin._ts_equal`: both-NaT is equal, NaT vs value is not, values
compare exactly. -/
def tsEqual (a b : Option ℤ) : Bool :=
  match a, b with
  | none, none => true
  | none, some _ => false
  | some _, none => false
  | some x, some y => decide (x = y)

/-- `origin._num_equal`: both-non-finite is equal, non-finite vs finite is
not, finite values compare with tolerance `1e-6`. -/
def numEqual (a b : Option ℚ) : Bool :=
  match a, b with
  | none, none => true
  | none, some _ => false
  | some _, none => false
  | some x, some y => decide (|x - y| < 1 / 1000000)

/-- The candidate-and-changed computation inside `origin._apply_move`: move
the time fields by `dmin` minutes snapped to the 5-minute grid (only when
`dmin ≠ 0` and both timestamps are valid), move the `f`/`e` pair by `dy`
meters by snapping the midpoint to the 30 m grid and redistributing the
original span symmetrically (only when `dy ≠ 0`, both positions are finite
and the span is non-zero); each movement counts as a change only when the
snapped result differs from the original under the code's own equality
(`_ts_equal` / `_num_equal`).  Returns the mutated row and the `changed`
flag. -/
def moveCandidates (row : MoveRow) (dmin : ℤ) (dy : ℚ) : MoveRow × Bool :=
  let tmove :=
    if dmin ≠ 0 ∧ row.startT.isSome ∧ row.endT.isSome then
      let s1 := some (snap_time_5min (row.startT.getD 0 + dmin))
      let e2 := some (snap_time_5min (row.endT.getD 0 + dmin))
      (s1, e2, !(tsEqual row.startT s1) || !(tsEqual row.endT e2))
    else (row.startT, row.endT, false)
  let ymove :=
    if dy ≠ 0 ∧ row.f.isSome ∧ row.e.isSome then
      let L := row.e.getD 0 - row.f.getD 0
      if 0 < |L| then
        let newMid := snap_y_30m ((row.f.getD 0 + row.e.getD 0) / 2 + dy)
        let f1 := some (newMid - |L| / 2)
        let e3 := some (newMid + |L| / 2)
        (f1, e3, !(numEqual row.f f1) || !(numEqual row.e e3))
      else (row.f, row.e, false)
    else (row.f, row.e, false)
  ({ row with startT := tmove.1, endT := tmove.2.1, f := ymove.1, e := ymove.2.1 },
    tmove.2.2 || ymove.2.2)

/-- `origin._apply_move` together with its session-state effects: locate the
row by `row_id` (unknown id returns the working set unchanged), compute the
snapped candidates, and only if a field actually changed: write the mutated
row, push the pre-mutation working set into the one-slot undo buffer
(overwriting it) and append a before/after diff to the change log. -/
def applyMove (st : EditState) (row_id : ℕ) (dmin : ℤ) (dy : ℚ) : EditState :=
  match st.edit_df.findIdx? (fun r => r.row_id == row_id) with
  | none => { st with edit_df := st.edit_df }
  | some idx =>
    let row := st.edit_df.getD idx ⟨0, "", none, none, none, none⟩
    let cand := moveCandidates row dmin dy
    if cand.2 then
      { edit_df := st.edit_df.set idx cand.1,
        undo_df := some st.edit_df,
        edit_logs := st.edit_logs ++ [⟨row, cand.1⟩] }
    else
      { st with edit_df := st.edit_df }

/-- Modelled from the spec: the undo consumer of the one-slot buffer written
by `_apply_move` is not part of the sources (the sidebar only declares the
button); per the spec, `undo` pops the single buffered prior state if present
(no-op returning the current state when the buffer is empty) and also pops
one entry from the change log. -/
def undoMove (st : EditState) : EditState :=
  match st.undo_df with
  | none => st
  | some prev => { edit_df := prev, undo_df := none, edit_logs := st.edit_logs.dropLast }

theorem tsEqual_refl (a : Option ℤ) : tsEqual a a = true := by
  cases a <;> simp [tsEqual]

theorem numEqual_refl (a : Option ℚ) : numEqual a a = true := by
  cases a with
  | none => rfl
  | some x => simp only [numEqual, sub_self, abs_zero]; norm_num

theorem moveCandidates_changed_ne (row : MoveRow) (dmin : ℤ) (dy : ℚ)
    (h : (moveCandidates row dmin dy).2 = true) :
    (moveCandidates row dmin dy).1 ≠ row := by
  obtain ⟨rid, vs, s0, e0, f0, e1⟩ := row
  intro heq
  unfold moveCandidates at h heq
  simp only [] at h heq
  split_ifs at h heq with c1 c2 c3
  · simp only [MoveRow.mk.injEq] at heq
    obtain ⟨-, -, hs, he, hf, hee⟩ := heq
    simp only [] at h
    rw [hs, he, hf, hee] at h
    simp [tsEqual_refl, numEqual_refl] at h
  · simp only [MoveRow.mk.injEq] at heq
    obtain ⟨-, -, hs, he, -, -⟩ := heq
    simp only [] at h
    rw [hs, he] at h
    simp [tsEqual_refl] at h
  · simp only [MoveRow.mk.injEq] at heq
    obtain ⟨-, -, hs, he, -, -⟩ := heq
    simp only [] at h
    rw [hs, he] at h
    simp [tsEqual_refl] at h
  · simp only [MoveRow.mk.injEq] at heq
    obtain ⟨-, -, -, -, hf, hee⟩ := heq
    simp only [] at h
    rw [hf, hee] at h
    simp [numEqual_refl] at h
  · simp only [] at h
    simp at h
  · simp only [] at h
    simp at h

/-- `apply_move` either leaves the whole session state untouched or performs
a real mutation together with both bookkeeping effects (shared helper). -/
theorem applyMove_dichotomy_aux (st : EditState) (row_id : ℕ) (dmin : ℤ) (dy : ℚ) :
    applyMove st row_id dmin dy = st
    ∨ ((applyMove st row_id dmin dy).edit_df ≠ st.edit_df
       ∧ (applyMove st row_id dmin dy).undo_df = some st.edit_df
       ∧ ∃ entry, (applyMove st row_id dmin dy).edit_logs = st.edit_logs ++ [entry]) := by
  unfold applyMove
  cases hidx : st.edit_df.findIdx? (fun r => r.row_id == row_id) with
  | none => left; rfl
  | some idx =>
    simp only []
    by_cases hch : (moveCandidates
        (st.edit_df.getD idx ⟨0, "", none, none, none, none⟩) dmin dy).2 = true
    · right
      rw [if_pos hch]
      refine ⟨?_, rfl, _, rfl⟩
      have hlt : idx < st.edit_df.length :=
        (List.findIdx?_eq_some_iff_findIdx_eq.mp hidx).1
      intro habs
      have h2 : (st.edit_df.set idx
            ((moveCandidates (st.edit_df.getD idx ⟨0, "", none, none, none, none⟩) dmin dy).1)).getD
            idx ⟨0, "", none, none, none, none⟩
          = (moveCandidates (st.edit_df.getD idx ⟨0, "", none, none, none, none⟩) dmin dy).1 := by
        simp [List.getD, List.getElem?_set_self, hlt]
      have habs2 : st.edit_df.set idx
            ((moveCandidates (st.edit_df.getD idx ⟨0, "", none, none, none, none⟩) dmin dy).1)
          = st.edit_df := habs
      rw [habs2] at h2
      exact moveCandidates_changed_ne _ dmin dy hch h2.symm
    · left
      rw [if_neg hch]

/-- C6: `apply_move` is all-or-nothing on the session state: either the
deltas (after snapping) produced no actual field change and the returned
state is exactly the input state — working set equal, change log untouched,
one-slot undo buffer not overwritten — or a field did change, and then the
working set actually differs, the pre-mutation working set is pushed into
the one-slot undo buffer (overwriting it) and exactly one before/after diff
is appended to the change log. -/
theorem applyMove_noop_or_change (st : EditState) (row_id : ℕ) (dmin : ℤ) (dy : ℚ) :
    applyMove st row_id dmin dy = st
    ∨ ((applyMove st row_id dmin dy).edit_df ≠ st.edit_df
       ∧ (applyMove st row_id dmin dy).undo_df = some st.edit_df
       ∧ ∃ entry, (applyMove st row_id dmin dy).edit_logs = st.edit_logs ++ [entry]) :=
  applyMove_dichotomy_aux st row_id dmin dy

/-- C5 counterexample: a no-op `apply_move` (delta +2 min collapses back
under the 5-minute snap) leaves a stale one-slot undo buffer in place, so an
immediately following `undo` rewinds *past* the pre-move state: the restored
working set differs from the pre-move working set and the change-log length
does not return to its prior value (it drops from 1 to 0). -/
theorem applyMove_undo_counterexample :
    (undoMove (applyMove
        ⟨[⟨0, "A", some 600, some 660, some 0, some 30⟩],
         some [⟨0, "A", some 0, some 60, some 0, some 30⟩],
         [⟨⟨0, "A", some 600, some 660, some 0, some 30⟩,
           ⟨0, "A", some 600, some 660, some 0, some 30⟩⟩]⟩
        0 2 0)).edit_df
      ≠ [⟨0, "A", some 600, some 660, some 0, some 30⟩]
    ∧ (undoMove (applyMove
        ⟨[⟨0, "A", some 600, some 660, some 0, some 30⟩],
         some [⟨0, "A", some 0, some 60, some 0, some 30⟩],
         [⟨⟨0, "A", some 600, some 660, some 0, some 30⟩,
           ⟨0, "A", some 600, some 660, some 0, some 30⟩⟩]⟩
        0 2 0)).edit_logs.length ≠ 1 := by
  constructor <;> decide

/-- C5 (amended): an `apply_move` that actually changed the session state,
followed immediately by `undo`, restores the working set to bit-for-bit
equality with its pre-move state and restores the change log itself (hence
its length) — the undo buffer is left empty; and `undo` with an empty
one-slot buffer is a no-op returning the state unchanged.  (After a *no-op*
`apply_move` with a stale buffered state, `undo` instead rewinds to that
older buffered state.) -/
theorem applyMove_undo_round_trip (st : EditState) (row_id : ℕ) (dmin : ℤ) (dy : ℚ)
    (h : applyMove st row_id dmin dy ≠ st) :
    undoMove (applyMove st row_id dmin dy) = ⟨st.edit_df, none, st.edit_logs⟩
    ∧ ∀ s : EditState, s.undo_df = none → undoMove s = s := by
  refine ⟨?_, fun s hs => by unfold undoMove; rw [hs]⟩
  rcases applyMove_dichotomy_aux st row_id dmin dy with heq | ⟨-, hundo, en, hlogs⟩
  · exact absurd heq h
  · unfold undoMove
    rw [hundo, hlogs]
    simp

theorem applyMove_undo_round_trip_witness :
    undoMove (applyMove ⟨[⟨0, "A", some 600, some 660, some 0, some 30⟩], none, []⟩ 0 7 0)
      = ⟨[⟨0, "A", some 600, some 660, some 0, some 30⟩], none, []⟩ :=
  (applyMove_undo_round_trip ⟨[⟨0, "A", some 600, some 660, some 0, some 30⟩], none, []⟩
    0 7 0 (by decide)).1

/-- A `Vessel` row of db.py (name plus optional LOA). -/
structure VesselRec where
  name : String
  loa_m : Option ℚ
deriving DecidableEq

/-- A `Berth` row of db.py (code plus meter range, default `0..400`). -/
structure BerthRec where
  code : String
  meter_start : ℤ
  meter_end : ℤ
deriving DecidableEq

/-- A `ScheduleVersion` row of db.py (`created_at` not modelled). -/
structure VersionRec where
  id : String
  source : String
  label : String
deriving DecidableEq

/-- An `Assignment` row of db.py. -/
structure AssignmentRec where
  id : String
  version_id : String
  vessel_name : String
  berth_code : String
  eta : ℤ
  etd : ℤ
  start_meter : Option ℚ
deriving DecidableEq

/-- The COMMITTED (visible) database state: only `session.commit()` makes
added rows visible; rows merely `session.add`-ed are lost if the transaction
later fails. -/
structure Store where
  versions : List VersionRec
  vessels : List VesselRec
  berths : List BerthRec
  assignments : List AssignmentRec
deriving DecidableEq

/-- One input row of the bookings DataFrame handed to
`create_version_with_assignments`.  `eta_raw`/`etd_raw` are `none` when
`pd.to_datetime` would raise on the raw value (unparseable timestamp). -/
structure BookingRow where
  vessel : String
  berth : String
  eta_raw : Option ℤ
  etd_raw : Option ℤ
  loa_m : Option ℚ
  start_meter : Option ℚ
deriving DecidableEq

/-- `db._get_or_create_vessel`: look the vessel up by name, creating and
COMMITTING it when absent. -/
def getOrCreateVessel (store : Store) (name : String) : Store × VesselRec :=
  match store.vessels.find? (fun v => v.name == name) with
  | some v => (store, v)
  | none =>
    ({ store with vessels := store.vessels ++ [⟨name, none⟩] }, ⟨name, none⟩)

/-- `db._get_berth`: look the berth up by code, creating (range `0..400`)
and COMMITTING it when absent. -/
def getBerth (store : Store) (code : String) : Store × BerthRec :=
  match store.berths.find? (fun b => b.code == code) with
  | some b => (store, b)
  | none =>
    ({ store with berths := store.berths ++ [⟨code, 0, 400⟩] }, ⟨code, 0, 400⟩)

/-- Apply one pending LOA back-fill at commit time. -/
def applyLoa (vessels : List VesselRec) (upd : String × ℚ) : List VesselRec :=
  vessels.map (fun v => if v.name = upd.1 then { v with loa_m := some upd.2 } else v)

/-- The row loop of `create_version_with_assignments`: per row, get-or-create
the vessel (committed), stage the LOA back-fill (uncommitted), get-or-create
the berth (committed), parse the timestamps — `pd.to_datetime` raising on an
unparseable value aborts the whole call, and the staged (uncommitted)
assignments and LOA updates are rolled back while everything committed so
far stays visible; after the last row a final commit publishes the staged
rows.  Assignment uuids are modelled as `"a<index>"`. -/
def cvLoop (vid : String) (committed : Store) (pendingA : List AssignmentRec)
    (pendingL : List (String × ℚ)) (n : ℕ) :
    List BookingRow → Except String String × Store
  | [] =>
    (Except.ok vid,
     { committed with
        assignments := committed.assignments ++ pendingA,
        vessels := pendingL.foldl applyLoa committed.vessels })
  | r :: rest =>
    let p1 := getOrCreateVessel committed r.vessel
    let pendingL1 :=
      match r.loa_m with
      | some q =>
        if p1.2.loa_m = none ∨ p1.2.loa_m = some 0 then pendingL ++ [(p1.2.name, q)]
        else pendingL
      | none => pendingL
    let p2 := getBerth p1.1 r.berth
    match r.eta_raw, r.etd_raw with
    | some eta, some etd =>
      cvLoop vid p2.1
        (pendingA ++ [⟨"a" ++ toString n, vid, p1.2.name, p2.2.code, eta, etd, r.start_meter⟩])
        pendingL1 (n + 1) rest
    | _, _ => (Except.error "to_datetime raised", p2.1)

/-- `db.create_version_with_assignments`: create the version row and COMMIT
it immediately (the fresh uuid is modelled as `"v<count>"`), then run the row
loop and commit the assignments at the end. -/
def create_version_with_assignments (store : Store) (rows : List BookingRow)
    (source label : String) : Except String String × Store :=
  let vid := "v" ++ toString store.versions.length
  cvLoop vid { store with versions := store.versions ++ [⟨vid, source, label⟩] } [] [] 0 rows

deriving instance DecidableEq for Except

/-- C2: `create_version_with_assignments` is NOT atomic: on a bookings frame
whose single row has an unparseable eta, the call fails, yet the version row
(committed before the loop) remains visible with no assignments — an
orphaned version — and the auto-created vessel row is also already
committed.  This contradicts the documented atomicity requirement. -/
theorem create_version_orphan_on_failure :
    (create_version_with_assignments ⟨[], [], [], []⟩
        [⟨"V1", "B1", none, none, none, none⟩] "user-edit" "").1
      = Except.error "to_datetime raised"
    ∧ (create_version_with_assignments ⟨[], [], [], []⟩
        [⟨"V1", "B1", none, none, none, none⟩] "user-edit" "").2.versions
      = [⟨"v0", "user-edit", ""⟩]
    ∧ (create_version_with_assignments ⟨[], [], [], []⟩
        [⟨"V1", "B1", none, none, none, none⟩] "user-edit" "").2.assignments = []
    ∧ (create_version_with_assignments ⟨[], [], [], []⟩
        [⟨"V1", "B1", none, none, none, none⟩] "user-edit" "").2.vessels
      = [⟨"V1", none⟩] := by
  refine ⟨by decide, by decide, by decide, by decide⟩
